import Mathlib

/-!
Verification of the Coin Chaos multiplayer game server (`src/server.py`).

The server owns all game state: a dictionary of players, a list of coin
resources, a connection map, the lobby/playing/leaderboard phase, the host
identity and the two monotone identity counters.  Every state change happens
inside the handler of a single inbound websocket message, inside one of the
two background tasks (the coin spawner and the end-of-game timer), or in the
disconnect cleanup of a connection handler.  This file gives a shallow
embedding of those state transformers and proves the specification claims
about them.

Python dictionaries preserve insertion order, so the `players` dictionary is
modelled as an association list `List (Nat × Player)`; dictionary iteration,
in-place update and `del` become list traversal, order-preserving `map` and
`filter`.  JSON values carried by untrusted clients are modelled by the
inductive `JValue`; a message whose raw text is not valid JSON is modelled as
`none` (in the Python source `json.loads` raises on such input, which no
handler catches).  Integer pixel coordinates and displacements are modelled
by `Int`.
-/

/-! ## Game constants (server.py lines 27-30) -/

def WIDTH : Int := 800
def HEIGHT : Int := 600
def PLAYER_SIZE : Int := 64
def RESOURCE_SIZE : Int := 32

/-! ## JSON values -/

/-- JSON values as produced by `json.loads`.  Numbers are modelled as
integers (the wire protocol carries pixel displacements and durations). -/
inductive JValue where
  | jnull
  | jbool (b : Bool)
  | jnum (n : Int)
  | jstr (s : String)
  | jarr (elems : List JValue)
  | jobj (fields : List (String × JValue))

/-- `d.get(k)`: Python dictionaries built by `json.loads` keep the last
occurrence of a duplicated key, hence the fold from the left. -/
def objGet (fields : List (String × JValue)) (k : String) : Option JValue :=
  fields.foldl (fun acc e => if e.1 = k then some e.2 else acc) none

/-- The numeric value a JSON value contributes to Python integer arithmetic:
ints are themselves, bools are 0/1 (Python `bool` is an `int` subclass), and
every other value makes the arithmetic raise `TypeError`. -/
def numVal : JValue → Option Int
  | JValue.jnum n => some n
  | JValue.jbool b => some (if b then 1 else 0)
  | _ => none

def JValue.isObj : JValue → Bool
  | JValue.jobj _ => true
  | _ => false

/-! ## Server state (server.py lines 38-54) -/

inductive GameState where
  | lobby
  | playing
  | leaderboard
deriving DecidableEq

/-- One entry of the `players` dictionary.  `name` and `color` are stored
verbatim from the join message (the server never inspects them again), so
they are kept as raw JSON values. -/
structure Player where
  x : Int
  y : Int
  score : Nat
  name : JValue
  color : JValue

/-- One entry of the `resources` list. -/
structure Resource where
  id : Nat
  x : Int
  y : Int
deriving DecidableEq

/-- The module-level mutable state of the server process. -/
structure ServerState where
  players : List (Nat × Player)
  resources : List Resource
  nextPlayerId : Nat
  nextResourceId : Nat
  /-- Keys of the `clients` dictionary (the websocket values are opaque). -/
  clients : List Nat
  gameState : GameState
  hostPlayerId : Nat
  gameStartTime : Int
  gameEndTime : Int

/-- The state at process start (server.py lines 38-54). -/
def initState : ServerState :=
  { players := [], resources := [], nextPlayerId := 1, nextResourceId := 1,
    clients := [], gameState := GameState.lobby, hostPlayerId := 0,
    gameStartTime := 0, gameEndTime := 0 }

/-! ## Dictionary helpers -/

/-- `players[pid]` as a partial lookup (first entry with the key). -/
def lookupPlayer (ps : List (Nat × Player)) (pid : Nat) : Option Player :=
  (ps.find? fun e => e.1 == pid).map Prod.snd

/-- In-place mutation of the entry with key `pid` (order preserved). -/
def updatePlayer (ps : List (Nat × Player)) (pid : Nat) (f : Player → Player) :
    List (Nat × Player) :=
  ps.map fun e => if e.1 == pid then (e.1, f e.2) else e

/-- `del players[pid]` (order of the remaining entries preserved). -/
def delKey (ps : List (Nat × Player)) (pid : Nat) : List (Nat × Player) :=
  ps.filter fun e => e.1 != pid

/-- `min(players.keys())`. -/
def minKey (ps : List (Nat × Player)) : Nat :=
  match ps with
  | [] => 0
  | e :: rest => (rest.map Prod.fst).foldl min e.1

/-! ## Movement resolver (server.py lines 360-470)

The move branch runs once per axis: a tentative coordinate for the mover, a
scan of all other players for a hitbox overlap against the tentative
position, and — when the first overlapping neighbour is found — a push that
is applied only if the neighbour's tentative coordinate stays in bounds and
no third player overlaps it.  The horizontal pass runs first; the vertical
pass reads the mover's already-updated `x`. -/

/-- The first other player whose hitbox overlaps `(potentialX, oldY)`
(server.py lines 373-382). -/
def findCollisionX (ps : List (Nat × Player)) (pid : Nat) (potentialX oldY : Int) :
    Option Nat :=
  (ps.find? fun e => e.1 != pid
      && decide (|potentialX - e.2.x| < PLAYER_SIZE)
      && decide (|oldY - e.2.y| < PLAYER_SIZE)).map Prod.fst

/-- Whether the pushed neighbour may actually move: its tentative coordinate
stays within `[PLAYER_SIZE/2, WIDTH - PLAYER_SIZE/2]` and no third player
overlaps its tentative position (server.py lines 388-403, negation of
`is_target_x_blocked`). -/
def pushAllowedX (ps : List (Nat × Player)) (pid tid : Nat)
    (targetPotentialX targetY : Int) : Bool :=
  decide (PLAYER_SIZE / 2 ≤ targetPotentialX ∧ targetPotentialX ≤ WIDTH - PLAYER_SIZE / 2)
  && !(ps.any fun e => e.1 != pid && e.1 != tid
        && decide (|targetPotentialX - e.2.x| < PLAYER_SIZE)
        && decide (|targetY - e.2.y| < PLAYER_SIZE))

/-- The horizontal pass (server.py lines 370-411). -/
def moveX (ps : List (Nat × Player)) (pid : Nat) (dx : Int) : List (Nat × Player) :=
  match lookupPlayer ps pid with
  | none => ps
  | some player =>
    match findCollisionX ps pid (player.x + dx) player.y with
    | none => updatePlayer ps pid fun p => { p with x := player.x + dx }
    | some tid =>
      match lookupPlayer ps tid with
      | none => ps
      | some target =>
        if pushAllowedX ps pid tid (target.x + dx) target.y then
          updatePlayer (updatePlayer ps tid fun p => { p with x := target.x + dx })
            pid fun p => { p with x := player.x + dx }
        else ps

/-- The first other player whose hitbox overlaps `(px, potentialY)`, where
`px` is the mover's x after the horizontal pass (server.py lines 420-427). -/
def findCollisionY (ps : List (Nat × Player)) (pid : Nat) (px potentialY : Int) :
    Option Nat :=
  (ps.find? fun e => e.1 != pid
      && decide (|px - e.2.x| < PLAYER_SIZE)
      && decide (|potentialY - e.2.y| < PLAYER_SIZE)).map Prod.fst

/-- Vertical analogue of `pushAllowedX` (server.py lines 432-445). -/
def pushAllowedY (ps : List (Nat × Player)) (pid tid : Nat)
    (targetX targetPotentialY : Int) : Bool :=
  decide (PLAYER_SIZE / 2 ≤ targetPotentialY ∧ targetPotentialY ≤ HEIGHT - PLAYER_SIZE / 2)
  && !(ps.any fun e => e.1 != pid && e.1 != tid
        && decide (|targetX - e.2.x| < PLAYER_SIZE)
        && decide (|targetPotentialY - e.2.y| < PLAYER_SIZE))

/-- The vertical pass (server.py lines 417-451). -/
def moveY (ps : List (Nat × Player)) (pid : Nat) (dy : Int) : List (Nat × Player) :=
  match lookupPlayer ps pid with
  | none => ps
  | some player =>
    match findCollisionY ps pid player.x (player.y + dy) with
    | none => updatePlayer ps pid fun p => { p with y := player.y + dy }
    | some tid =>
      match lookupPlayer ps tid with
      | none => ps
      | some target =>
        if pushAllowedY ps pid tid target.x (target.y + dy) then
          updatePlayer (updatePlayer ps tid fun p => { p with y := target.y + dy })
            pid fun p => { p with y := player.y + dy }
        else ps

/-- The final boundary clamp applied to every player after both axes
(server.py lines 456-458). -/
def clampAll (ps : List (Nat × Player)) : List (Nat × Player) :=
  ps.map fun e => (e.1, { e.2 with
    x := max (PLAYER_SIZE / 2) (min (WIDTH - PLAYER_SIZE / 2) e.2.x),
    y := max (PLAYER_SIZE / 2) (min (HEIGHT - PLAYER_SIZE / 2) e.2.y) })

/-- Whether the mover at `(px, py)` collects the resource `r`
(server.py lines 465-466; `PLAYER_SIZE / 2` is 32 on integer inputs). -/
def coinHit (px py : Int) (r : Resource) : Bool :=
  decide (|px - r.x| < PLAYER_SIZE / 2) && decide (|py - r.y| < PLAYER_SIZE / 2)

/-- A fully processed `move` message (server.py lines 360-470): guarded by
`game_state == "playing" and player_id in players`, then horizontal pass,
vertical pass, clamp of every player, and coin collection against the
mover's final position.  The second component is `broadcast_needed`. -/
def processMove (s : ServerState) (pid : Nat) (dx dy : Int) : ServerState × Bool :=
  if s.gameState = GameState.playing ∧ (lookupPlayer s.players pid).isSome = true then
    match lookupPlayer (clampAll (moveY (moveX s.players pid dx) pid dy)) pid with
    | some pl =>
      ({ s with
          players := updatePlayer (clampAll (moveY (moveX s.players pid dx) pid dy)) pid
            fun p => { p with score := p.score + (s.resources.filter (coinHit pl.x pl.y)).length },
          resources := s.resources.filter fun r => !coinHit pl.x pl.y r }, true)
    | none => ({ s with players := clampAll (moveY (moveX s.players pid dx) pid dy) }, true)
  else (s, false)

/-- A `move` message whose `dx` is numeric but whose `dy` is missing or
non-numeric: the handler raises (`KeyError`/`TypeError`) at
`potential_y = old_y + data["dy"]` (server.py line 417) after the horizontal
pass has already been committed, so the clamp and the coin check never run.
The partially updated state is left behind; the exception tears the
connection down and its disconnect cleanup runs later as a separate step. -/
def processMoveCrashDy (s : ServerState) (pid : Nat) (dx : Int) : ServerState :=
  if s.gameState = GameState.playing ∧ (lookupPlayer s.players pid).isSome = true then
    { s with players := moveX s.players pid dx }
  else s

/-! ## start_game (server.py lines 497-513) -/

/-- A fully processed `start_game` message: only the host, only from the
lobby.  The second component is `broadcast_needed`. -/
def processStartGame (s : ServerState) (pid : Nat) (durationMinutes now : Int) :
    ServerState × Bool :=
  if pid = s.hostPlayerId ∧ s.gameState = GameState.lobby then
    ({ s with gameState := GameState.playing, gameStartTime := now,
              gameEndTime := now + durationMinutes * 60 }, true)
  else (s, false)

/-- A `start_game` message whose `duration` is a string, list or object:
`duration * 60` succeeds by Python sequence repetition, so
`game_state = "playing"` and `game_start_time` are assigned, and only the
addition `game_start_time + duration_seconds` raises (server.py line 508) —
leaving the phase switched with no timer scheduled. -/
def processStartGameCrash (s : ServerState) (pid : Nat) (now : Int) : ServerState :=
  if pid = s.hostPlayerId ∧ s.gameState = GameState.lobby then
    { s with gameState := GameState.playing, gameStartTime := now }
  else s

/-! ## Join handshake (server.py lines 250-341) -/

/-- `join_data.get("type") == "join" and join_data.get("password") == LOBBY_PASSWORD`
(server.py line 255). -/
def isJoinWithPw (fields : List (String × JValue)) (pw : String) : Bool :=
  (match objGet fields "type" with
   | some (JValue.jstr t) => t = "join"
   | _ => false)
  && (match objGet fields "password" with
      | some (JValue.jstr p) => p = pw
      | _ => false)

/-- How the join phase of `handle_client` ends. -/
inductive JoinOutcome where
  | /-- An uncaught exception: no reply of any kind is sent; the websockets
    library closes the transport with an internal-error code. -/
    crashed
  | /-- A `join_fail` message with the given reason is sent and the
    connection is closed. -/
    rejected (reason : String)
  | /-- `join_success` carrying the assigned player id is sent. -/
    joined (pid : Nat)
deriving DecidableEq

def JoinOutcome.isFail : JoinOutcome → Bool
  | JoinOutcome.rejected _ => true
  | _ => false

/-- The state mutation of a successful join (server.py lines 276-305): the
next sequential id is assigned, the player record is created at the random
spawn position with the client-supplied or random colour, the connection is
registered, and the newcomer becomes host exactly when the dictionary holds
one player after the insertion. -/
def joinedState (s : ServerState) (fields : List (String × JValue)) (sx sy : Int)
    (rcolor : JValue) : ServerState :=
  { s with
    players := s.players ++ [(s.nextPlayerId,
      { x := sx, y := sy, score := 0,
        name := (objGet fields "name").getD
          (JValue.jstr ("Player" ++ toString s.nextPlayerId)),
        color := (objGet fields "color").getD rcolor })],
    clients := s.clients ++ [s.nextPlayerId],
    nextPlayerId := s.nextPlayerId + 1,
    hostPlayerId := if s.players.length + 1 = 1 then s.nextPlayerId
                    else s.hostPlayerId }

/-- The join phase of `handle_client` applied to the first inbound message
(server.py lines 250-341).  `msg` is `none` when the raw text is not valid
JSON (`json.loads` raises, uncaught).  A parsed non-object crashes too:
`join_data.get` raises `AttributeError`.  `sx`/`sy` are the values of the two
`random.randint(PLAYER_SIZE, ...)` spawn draws and `rcolor` the random
default colour. -/
def handleFirstMessage (s : ServerState) (pw : String) (msg : Option JValue)
    (sx sy : Int) (rcolor : JValue) : ServerState × JoinOutcome :=
  match msg with
  | none => (s, JoinOutcome.crashed)
  | some (JValue.jobj fields) =>
    if isJoinWithPw fields pw then
      if s.gameState ≠ GameState.lobby then
        (s, JoinOutcome.rejected "Game is already in progress.")
      else
        (joinedState s fields sx sy rcolor, JoinOutcome.joined s.nextPlayerId)
    else (s, JoinOutcome.rejected "Wrong password")
  | some _ => (s, JoinOutcome.crashed)

/-! ## Message loop dispatch (server.py lines 348-517) -/

/-- How processing one in-loop message ends, seen from the outside. -/
inductive LoopOutcome where
  | /-- No branch fired: no reply, no broadcast, state untouched. -/
    ignored
  | /-- `broadcast_needed` was set: a full-state broadcast follows after the
    lock is released. -/
    broadcastUpdate
  | /-- A `chat_broadcast` payload was sent to every other connection (from
    inside the locked section). -/
    chatRelay
  | /-- An uncaught exception terminated the message loop; the disconnect
    cleanup runs afterwards as a separate step. -/
    crashed
deriving DecidableEq

/-- One iteration of the message loop (server.py lines 348-521).  `msg` is
`none` for raw text that is not valid JSON (`json.loads` raises, uncaught);
a parsed non-object crashes at `data["type"]`; an object without `"type"`
raises `KeyError`; a `"type"` that is not one of the three handled strings
falls through every `elif` and is silently ignored. -/
def processLoopMessage (s : ServerState) (pid : Nat) (msg : Option JValue)
    (now : Int) : ServerState × LoopOutcome :=
  match msg with
  | none => (s, LoopOutcome.crashed)
  | some (JValue.jobj fields) =>
    match objGet fields "type" with
    | none => (s, LoopOutcome.crashed)
    | some t =>
      match t with
      | JValue.jstr ts =>
        if ts = "move" then
          if s.gameState = GameState.playing ∧ (lookupPlayer s.players pid).isSome = true then
            match (objGet fields "dx").bind numVal with
            | none => (s, LoopOutcome.crashed)
            | some dx =>
              match (objGet fields "dy").bind numVal with
              | none => (processMoveCrashDy s pid dx, LoopOutcome.crashed)
              | some dy => ((processMove s pid dx dy).1, LoopOutcome.broadcastUpdate)
          else (s, LoopOutcome.ignored)
        else if ts = "chat" then
          if (lookupPlayer s.players pid).isSome = true then (s, LoopOutcome.chatRelay)
          else (s, LoopOutcome.ignored)
        else if ts = "start_game" then
          if pid = s.hostPlayerId ∧ s.gameState = GameState.lobby then
            match objGet fields "duration" with
            | none => ((processStartGame s pid 2 now).1, LoopOutcome.broadcastUpdate)
            | some (JValue.jnum d) =>
              ((processStartGame s pid d now).1, LoopOutcome.broadcastUpdate)
            | some (JValue.jbool b) =>
              ((processStartGame s pid (if b then 1 else 0) now).1, LoopOutcome.broadcastUpdate)
            | some JValue.jnull => (s, LoopOutcome.crashed)
            | some _ => (processStartGameCrash s pid now, LoopOutcome.crashed)
          else (s, LoopOutcome.ignored)
        else (s, LoopOutcome.ignored)
      | _ => (s, LoopOutcome.ignored)
  | some _ => (s, LoopOutcome.crashed)

/-! ## Disconnect cleanup (server.py lines 527-587) -/

/-- The disconnect cleanup of a connection whose player id is `pid`
(server.py lines 536-581): remove the player and its connection, promote the
lowest remaining id if the host left, and — when no players remain — reset
phase, host, the player-id counter and the resource list. -/
def processDisconnect (s : ServerState) (pid : Nat) : ServerState :=
  match lookupPlayer s.players pid with
  | none => s
  | some _ =>
    if (delKey s.players pid).isEmpty then
      { s with players := delKey s.players pid,
               clients := s.clients.filter fun c => c != pid,
               hostPlayerId := 0, gameState := GameState.lobby,
               nextPlayerId := 1, resources := [] }
    else
      { s with players := delKey s.players pid,
               clients := s.clients.filter fun c => c != pid,
               hostPlayerId := if pid = s.hostPlayerId then minKey (delKey s.players pid)
                               else s.hostPlayerId }

/-! ## Game timer (server.py lines 143-218) -/

/-- The timer's first locked section after the game duration elapses
(server.py lines 171-180): transition to the leaderboard and clear the
resources, but only if the phase is still `playing`. -/
def timerToLeaderboard (s : ServerState) : ServerState :=
  if s.gameState = GameState.playing then
    { s with gameState := GameState.leaderboard, resources := [] }
  else s

/-- The timer's final locked section after the 10-second leaderboard window
(server.py lines 194-218): close every connection and reset players,
clients, resources, phase, host and the player-id counter.  The resource-id
counter `next_resource_id` is not assigned here (it is absent from the
`global` declaration on line 159 and from the reset block). -/
def timerReset (s : ServerState) : ServerState :=
  { s with players := [], clients := [], resources := [],
           gameState := GameState.lobby, hostPlayerId := 0, nextPlayerId := 1 }

/-! ## Coin spawner (server.py lines 595-634) -/

/-- One tick of `spawn_resources` (server.py lines 607-630): if at least one
connection exists and the phase is `playing`, append exactly one coin with
the next sequential id at `(rx, ry)`, the values of the two
`random.randint(RESOURCE_SIZE, ...)` draws; otherwise the tick is a no-op.
The second component is `broadcast_needed`. -/
def spawnTick (s : ServerState) (rx ry : Int) : ServerState × Bool :=
  if s.clients ≠ [] ∧ s.gameState = GameState.playing then
    ({ s with resources := s.resources ++ [{ id := s.nextResourceId, x := rx, y := ry }],
              nextResourceId := s.nextResourceId + 1 }, true)
  else (s, false)

/-- The support of the spawner's random draws in the source:
`random.randint(RESOURCE_SIZE, WIDTH - RESOURCE_SIZE)` and
`random.randint(RESOURCE_SIZE, HEIGHT - RESOURCE_SIZE)` (server.py
lines 622-623), i.e. `[32, 768] × [32, 568]`. -/
def codeSpawnSupport (x y : Int) : Prop :=
  RESOURCE_SIZE ≤ x ∧ x ≤ WIDTH - RESOURCE_SIZE ∧
  RESOURCE_SIZE ≤ y ∧ y ≤ HEIGHT - RESOURCE_SIZE

/-- The spawn support asserted by the specification claim: world bounds
reduced by the coin's HALF-size margin, `[16, 784] × [16, 584]`. -/
def claimSpawnSupport (x y : Int) : Prop :=
  16 ≤ x ∧ x ≤ 784 ∧ 16 ≤ y ∧ y ≤ 584

instance (x y : Int) : Decidable (codeSpawnSupport x y) := by
  unfold codeSpawnSupport; infer_instance

instance (x y : Int) : Decidable (claimSpawnSupport x y) := by
  unfold claimSpawnSupport; infer_instance

/-! ## The transition system

Each constructor is one serialized state transformation of the running
server: one locked section of a connection handler or background task (plus
the crash variants, whose partially-mutated state becomes visible once the
handler's `finally` releases the lock).  The side conditions on `join` and
`spawn` are the contracts of the corresponding `random.randint` calls. -/

/-- A step in which every dispatched message is well formed enough for its
branch to run to completion (no handler crashes mid-mutation). -/
inductive GoodStep : ServerState → ServerState → Prop where
  | firstMsg (s : ServerState) (pw : String) (msg : Option JValue)
      (sx sy : Int) (rcolor : JValue)
      (hx1 : PLAYER_SIZE ≤ sx) (hx2 : sx ≤ WIDTH - PLAYER_SIZE)
      (hy1 : PLAYER_SIZE ≤ sy) (hy2 : sy ≤ HEIGHT - PLAYER_SIZE) :
      GoodStep s (handleFirstMessage s pw msg sx sy rcolor).1
  | move (s : ServerState) (pid : Nat) (dx dy : Int) :
      GoodStep s (processMove s pid dx dy).1
  | startGame (s : ServerState) (pid : Nat) (dur now : Int) :
      GoodStep s (processStartGame s pid dur now).1
  | startGameCrash (s : ServerState) (pid : Nat) (now : Int) :
      GoodStep s (processStartGameCrash s pid now)
  | disconnect (s : ServerState) (pid : Nat) :
      GoodStep s (processDisconnect s pid)
  | timerLb (s : ServerState) : GoodStep s (timerToLeaderboard s)
  | timerReset (s : ServerState) : GoodStep s (timerReset s)
  | spawn (s : ServerState) (rx ry : Int)
      (hx1 : RESOURCE_SIZE ≤ rx) (hx2 : rx ≤ WIDTH - RESOURCE_SIZE)
      (hy1 : RESOURCE_SIZE ≤ ry) (hy2 : ry ≤ HEIGHT - RESOURCE_SIZE) :
      GoodStep s (spawnTick s rx ry).1

/-- Any serialized state transformation, including the state a crashed move
handler leaves behind after its horizontal pass. -/
inductive Step : ServerState → ServerState → Prop where
  | good (s s' : ServerState) (h : GoodStep s s') : Step s s'
  | moveCrash (s : ServerState) (pid : Nat) (dx : Int) :
      Step s (processMoveCrashDy s pid dx)

/-- States the server can be in, starting from process start. -/
inductive Reachable : ServerState → Prop where
  | init : Reachable initState
  | step (s s' : ServerState) (h : Reachable s) (hs : Step s s') : Reachable s'

/-- States reachable while every move message carries a numeric `dx` and
`dy` (no handler ever crashes between the horizontal pass and the clamp). -/
inductive ReachableGood : ServerState → Prop where
  | init : ReachableGood initState
  | step (s s' : ServerState) (h : ReachableGood s) (hs : GoodStep s s') :
      ReachableGood s'

/-! ## Lock/IO event traces (server.py, §4.1 of the spec)

Each list is the order of lock operations, state mutations and network
sends of one code path, read off the source.  `send` covers any awaited
network operation: `websocket.send`, `websocket.close` and
`broadcast_message`/`broadcast_updates`. -/

inductive Ev where
  | acquire
  | release
  | mutate
  | send
deriving DecidableEq

/-- Whether some network send happens while the lock is held. -/
def sendsWhileHeld (tr : List Ev) : Bool :=
  (tr.foldl (fun acc e =>
      match e with
      | Ev.acquire => (true, acc.2)
      | Ev.release => (false, acc.2)
      | Ev.mutate => acc
      | Ev.send => (acc.1, acc.2 || acc.1)) (false, false)).2

/-- Whether some state mutation happens outside the lock. -/
def mutatesOutsideLock (tr : List Ev) : Bool :=
  (tr.foldl (fun acc e =>
      match e with
      | Ev.acquire => (true, acc.2)
      | Ev.release => (false, acc.2)
      | Ev.mutate => (acc.1, acc.2 || !acc.1)
      | Ev.send => acc) (false, false)).2

/-- `move` branch: mutate under the lock, `broadcast_updates` after release
(server.py lines 354-521). -/
def moveTrace : List Ev := [Ev.acquire, Ev.mutate, Ev.release, Ev.send]

/-- `chat` branch: `broadcast_message` is awaited at line 491, inside the
locked section (lock acquired line 354, released line 517). -/
def chatTrace : List Ev := [Ev.acquire, Ev.send, Ev.release]

/-- `start_game` branch: mutate under the lock, broadcast after release. -/
def startGameTrace : List Ev := [Ev.acquire, Ev.mutate, Ev.release, Ev.send]

/-- Successful join: player created under the lock (lines 258-311), then
`join_success`, `broadcast_updates` and the system chat line are all sent
after release (lines 316-332). -/
def joinSuccessTrace : List Ev :=
  [Ev.acquire, Ev.mutate, Ev.release, Ev.send, Ev.send, Ev.send]

/-- Join refused because a game is in progress: the `join_fail` send and the
close happen at lines 265-270, inside the locked section. -/
def joinRejectInProgressTrace : List Ev := [Ev.acquire, Ev.send, Ev.send, Ev.release]

/-- Join refused for a wrong password (lines 336-340): the lock was never
acquired. -/
def joinRejectWrongPasswordTrace : List Ev := [Ev.send, Ev.send]

/-- Disconnect cleanup: mutation under the lock (lines 536-581), system
message and state broadcast after release (lines 584-587). -/
def disconnectTrace : List Ev := [Ev.acquire, Ev.mutate, Ev.release, Ev.send, Ev.send]

/-- Spawner tick: coin appended under the lock (lines 615-630), broadcast
after release (lines 633-634). -/
def spawnerTrace : List Ev := [Ev.acquire, Ev.mutate, Ev.release, Ev.send]

/-- Timer, playing → leaderboard: mutation under the lock (lines 171-180),
broadcast after release (line 183). -/
def timerLeaderboardTrace : List Ev := [Ev.acquire, Ev.mutate, Ev.release, Ev.send]

/-- Timer, final reset: every client connection is closed at line 202,
inside the locked section (acquired line 194, released line 218), before the
state is cleared. -/
def timerResetTrace : List Ev := [Ev.acquire, Ev.send, Ev.mutate, Ev.release]

/-! ## Concrete states used by the scenario claims -/

/-- Player A of the worked example: id 1 at (100, 100). -/
def exPlayerA : Player :=
  { x := 100, y := 100, score := 0, name := JValue.jstr "A", color := JValue.jnull }

/-- Player B of the worked example: id 2 at (160, 100). -/
def exPlayerB : Player :=
  { x := 160, y := 100, score := 0, name := JValue.jstr "B", color := JValue.jnull }

/-- The worked example of spec §8: A and B side by side during play. -/
def exState : ServerState :=
  { players := [(1, exPlayerA), (2, exPlayerB)], resources := [],
    nextPlayerId := 3, nextResourceId := 1, clients := [1, 2],
    gameState := GameState.playing, hostPlayerId := 1,
    gameStartTime := 0, gameEndTime := 60 }

/-- The worked example with one coin at (120, 100), within collection range
(both axis distances < 32) of A's final position (110, 100). -/
def exStateCoin : ServerState :=
  { exState with resources := [{ id := 1, x := 120, y := 100 }] }

/-- A join message with the password `"pw"`. -/
def joinFields : List (String × JValue) :=
  [("type", JValue.jstr "join"), ("password", JValue.jstr "pw")]

/-- One player joined from the initial state (spawned at (700, 100)). -/
def st1 : ServerState :=
  (handleFirstMessage initState "pw" (some (JValue.jobj joinFields)) 700 100 JValue.jnull).1

/-- The host started a 1-minute game at time 0. -/
def st2 : ServerState := (processStartGame st1 1 1 0).1

/-- The sole player sent `{"type": "move", "dx": 500}` — no `dy` — so the
handler crashed after the horizontal pass moved it to x = 1200. -/
def badState : ServerState := processMoveCrashDy st2 1 500

/-- One coin spawned at (100, 100) during the game of `st2`. -/
def st3 : ServerState := (spawnTick st2 100 100).1

/-- The game timer fired: leaderboard, coins cleared. -/
def st4 : ServerState := timerToLeaderboard st3

/-- The timer's final reset after the leaderboard window. -/
def st5 : ServerState := timerReset st4

/-! ## Invariant predicates -/

/-- The bounds rectangle of the final clamp (and of the claimed invariant):
`32 ≤ x ≤ 768` and `32 ≤ y ≤ 568`. -/
def inBoundsP (p : Player) : Prop :=
  PLAYER_SIZE / 2 ≤ p.x ∧ p.x ≤ WIDTH - PLAYER_SIZE / 2 ∧
  PLAYER_SIZE / 2 ≤ p.y ∧ p.y ≤ HEIGHT - PLAYER_SIZE / 2

instance : DecidablePred inBoundsP := by
  intro p; unfold inBoundsP; infer_instance

/-- The connection map's keys coincide with the player map's keys (the code
always inserts and deletes the two dictionaries together). -/
def clientsInv (s : ServerState) : Prop := s.clients = s.players.map Prod.fst

/-- Host continuity: 0 while no players exist, a registered player identity
otherwise. -/
def hostInv (s : ServerState) : Prop :=
  (s.players = [] → s.hostPlayerId = 0) ∧
  (s.players ≠ [] → s.hostPlayerId ∈ s.players.map Prod.fst)

/-- Every player sits inside the clamp rectangle `[32, 768] × [32, 568]`. -/
def boundsInv (s : ServerState) : Prop := ∀ e ∈ s.players, inBoundsP e.2

/-- Every coin sits inside the spawner's randint rectangle. -/
def resourcesInv (s : ServerState) : Prop :=
  ∀ r ∈ s.resources, codeSpawnSupport r.x r.y

/-! ## Association-list lemmas -/

theorem lookupPlayer_cons (e : Nat × Player) (rest : List (Nat × Player)) (pid : Nat) :
    lookupPlayer (e :: rest) pid
      = if e.1 = pid then some e.2 else lookupPlayer rest pid := by
  unfold lookupPlayer
  by_cases h : e.1 = pid
  · rw [List.find?_cons_of_pos _ (by simp [h])]; simp [h]
  · rw [List.find?_cons_of_neg _ (by simp [h])]; simp [h]

theorem updatePlayer_cons (e : Nat × Player) (rest : List (Nat × Player)) (pid : Nat)
    (f : Player → Player) :
    updatePlayer (e :: rest) pid f
      = (if e.1 = pid then (e.1, f e.2) else e) :: updatePlayer rest pid f := by
  unfold updatePlayer
  by_cases h : e.1 = pid <;> simp [h]

theorem lookup_updatePlayer_self (ps : List (Nat × Player)) (pid : Nat)
    (f : Player → Player) :
    lookupPlayer (updatePlayer ps pid f) pid = (lookupPlayer ps pid).map f := by
  induction ps with
  | nil => rfl
  | cons e rest ih =>
    rw [updatePlayer_cons, lookupPlayer_cons, lookupPlayer_cons]
    by_cases h : e.1 = pid
    · simp [h]
    · simp [h, ih]

theorem lookup_updatePlayer_ne (ps : List (Nat × Player)) (pid k : Nat)
    (f : Player → Player) (h : k ≠ pid) :
    lookupPlayer (updatePlayer ps pid f) k = lookupPlayer ps k := by
  induction ps with
  | nil => rfl
  | cons e rest ih =>
    rw [updatePlayer_cons, lookupPlayer_cons, lookupPlayer_cons]
    have hpk : ¬ pid = k := fun hh => h hh.symm
    by_cases he : e.1 = pid
    · simp [he, hpk, ih]
    · by_cases hk : e.1 = k
      · simp [he, hk, h]
      · simp [he, hk, ih]

theorem keys_updatePlayer (ps : List (Nat × Player)) (pid : Nat) (f : Player → Player) :
    (updatePlayer ps pid f).map Prod.fst = ps.map Prod.fst := by
  induction ps with
  | nil => rfl
  | cons e rest ih =>
    rw [updatePlayer_cons]
    by_cases h : e.1 = pid <;> simp [h, ih]

theorem clampAll_cons (e : Nat × Player) (rest : List (Nat × Player)) :
    clampAll (e :: rest)
      = (e.1, { e.2 with
          x := max (PLAYER_SIZE / 2) (min (WIDTH - PLAYER_SIZE / 2) e.2.x),
          y := max (PLAYER_SIZE / 2) (min (HEIGHT - PLAYER_SIZE / 2) e.2.y) })
        :: clampAll rest := rfl

theorem keys_clampAll (ps : List (Nat × Player)) :
    (clampAll ps).map Prod.fst = ps.map Prod.fst := by
  induction ps with
  | nil => rfl
  | cons e rest ih => rw [clampAll_cons]; simp [ih]

theorem keys_moveX (ps : List (Nat × Player)) (pid : Nat) (dx : Int) :
    (moveX ps pid dx).map Prod.fst = ps.map Prod.fst := by
  unfold moveX
  split
  · rfl
  · split
    · exact keys_updatePlayer ..
    · split
      · rfl
      · split
        · rw [keys_updatePlayer, keys_updatePlayer]
        · rfl

theorem keys_moveY (ps : List (Nat × Player)) (pid : Nat) (dy : Int) :
    (moveY ps pid dy).map Prod.fst = ps.map Prod.fst := by
  unfold moveY
  split
  · rfl
  · split
    · exact keys_updatePlayer ..
    · split
      · rfl
      · split
        · rw [keys_updatePlayer, keys_updatePlayer]
        · rfl

theorem lookupPlayer_isSome_iff (ps : List (Nat × Player)) (pid : Nat) :
    (lookupPlayer ps pid).isSome = true ↔ pid ∈ ps.map Prod.fst := by
  induction ps with
  | nil => simp [lookupPlayer]
  | cons e rest ih =>
    rw [lookupPlayer_cons]
    by_cases h : e.1 = pid
    · simp [h]
    · have h' : ¬ pid = e.1 := fun hh => h hh.symm
      simp [h, h', ih]

theorem lookupPlayer_isSome_of_keys_eq (ps qs : List (Nat × Player)) (pid : Nat)
    (hk : qs.map Prod.fst = ps.map Prod.fst)
    (h : (lookupPlayer ps pid).isSome = true) :
    (lookupPlayer qs pid).isSome = true := by
  rw [lookupPlayer_isSome_iff] at h ⊢
  rw [hk]; exact h

theorem delKey_cons (e : Nat × Player) (rest : List (Nat × Player)) (pid : Nat) :
    delKey (e :: rest) pid
      = if e.1 = pid then delKey rest pid else e :: delKey rest pid := by
  unfold delKey
  by_cases h : e.1 = pid <;> simp [List.filter_cons, h]

theorem keys_delKey (ps : List (Nat × Player)) (pid : Nat) :
    (delKey ps pid).map Prod.fst = (ps.map Prod.fst).filter (fun k => k != pid) := by
  induction ps with
  | nil => rfl
  | cons e rest ih =>
    rw [delKey_cons]
    by_cases h : e.1 = pid <;> simp [List.filter_cons, h, ih]

theorem mem_keys_delKey (ps : List (Nat × Player)) (pid k : Nat)
    (h1 : k ∈ ps.map Prod.fst) (h2 : k ≠ pid) :
    k ∈ (delKey ps pid).map Prod.fst := by
  rw [keys_delKey]
  exact List.mem_filter.mpr ⟨h1, by simp [h2]⟩

theorem delKey_forall (P : Player → Prop) (ps : List (Nat × Player)) (pid : Nat)
    (h : ∀ e ∈ ps, P e.2) :
    ∀ e ∈ delKey ps pid, P e.2 :=
  fun e he => h e (List.mem_filter.mp he).1

/-! ## Minimum-of-keys lemmas -/

theorem foldl_min_le_init (l : List Nat) (a : Nat) : l.foldl min a ≤ a := by
  induction l generalizing a with
  | nil => simp
  | cons x xs ih =>
    calc (x :: xs).foldl min a = xs.foldl min (min a x) := rfl
    _ ≤ min a x := ih _
    _ ≤ a := min_le_left _ _

theorem foldl_min_le_mem (l : List Nat) (a k : Nat) (hk : k ∈ l) :
    l.foldl min a ≤ k := by
  induction l generalizing a with
  | nil => cases hk
  | cons x xs ih =>
    rcases List.mem_cons.mp hk with h | h
    · subst h
      calc (k :: xs).foldl min a = xs.foldl min (min a k) := rfl
      _ ≤ min a k := foldl_min_le_init ..
      _ ≤ k := min_le_right _ _
    · exact ih _ h

theorem foldl_min_mem (l : List Nat) (a : Nat) :
    l.foldl min a = a ∨ l.foldl min a ∈ l := by
  induction l generalizing a with
  | nil => left; rfl
  | cons x xs ih =>
    rcases ih (min a x) with h | h
    · rcases Nat.le_total a x with hax | hxa
      · left; simpa [List.foldl_cons, min_eq_left hax] using h
      · right
        have hx : (x :: xs).foldl min a = x := by
          simpa [List.foldl_cons, min_eq_right hxa] using h
        rw [hx]; exact List.mem_cons_self _ _
    · right
      exact List.mem_cons_of_mem _ (by simpa [List.foldl_cons] using h)

theorem minKey_mem (ps : List (Nat × Player)) (h : ps ≠ []) :
    minKey ps ∈ ps.map Prod.fst := by
  cases ps with
  | nil => exact absurd rfl h
  | cons e rest =>
    show (rest.map Prod.fst).foldl min e.1 ∈ (e :: rest).map Prod.fst
    rcases foldl_min_mem (rest.map Prod.fst) e.1 with h1 | h1
    · rw [List.map_cons, h1]; exact List.mem_cons_self _ _
    · rw [List.map_cons]; exact List.mem_cons_of_mem _ h1

theorem minKey_le (ps : List (Nat × Player)) (k : Nat) (hk : k ∈ ps.map Prod.fst) :
    minKey ps ≤ k := by
  cases ps with
  | nil => simp at hk
  | cons e rest =>
    show (rest.map Prod.fst).foldl min e.1 ≤ k
    rw [List.map_cons] at hk
    rcases List.mem_cons.mp hk with h | h
    · subst h; exact foldl_min_le_init ..
    · exact foldl_min_le_mem _ _ _ h

/-! ## Field-preservation lemmas for the movement pipeline -/

theorem score_lookup_updatePlayer (ps : List (Nat × Player)) (pid k : Nat)
    (f : Player → Player) (hf : ∀ p, (f p).score = p.score) :
    (lookupPlayer (updatePlayer ps pid f) k).map Player.score
      = (lookupPlayer ps k).map Player.score := by
  by_cases h : k = pid
  · subst h
    rw [lookup_updatePlayer_self]
    cases lookupPlayer ps k <;> simp [hf]
  · rw [lookup_updatePlayer_ne _ _ _ _ h]

theorem score_lookup_moveX (ps : List (Nat × Player)) (pid : Nat) (dx : Int) (k : Nat) :
    (lookupPlayer (moveX ps pid dx) k).map Player.score
      = (lookupPlayer ps k).map Player.score := by
  unfold moveX
  split
  · rfl
  · split
    · exact score_lookup_updatePlayer _ _ _ _ fun p => rfl
    · split
      · rfl
      · split
        · refine (score_lookup_updatePlayer _ _ _ _ ?_).trans
            (score_lookup_updatePlayer _ _ _ _ ?_) <;> exact fun p => rfl
        · rfl

theorem score_lookup_moveY (ps : List (Nat × Player)) (pid : Nat) (dy : Int) (k : Nat) :
    (lookupPlayer (moveY ps pid dy) k).map Player.score
      = (lookupPlayer ps k).map Player.score := by
  unfold moveY
  split
  · rfl
  · split
    · exact score_lookup_updatePlayer _ _ _ _ fun p => rfl
    · split
      · rfl
      · split
        · refine (score_lookup_updatePlayer _ _ _ _ ?_).trans
            (score_lookup_updatePlayer _ _ _ _ ?_) <;> exact fun p => rfl
        · rfl

theorem score_lookup_clampAll (ps : List (Nat × Player)) (k : Nat) :
    (lookupPlayer (clampAll ps) k).map Player.score
      = (lookupPlayer ps k).map Player.score := by
  induction ps with
  | nil => rfl
  | cons e rest ih =>
    rw [clampAll_cons, lookupPlayer_cons, lookupPlayer_cons]
    by_cases h : e.1 = k <;> simp [h, ih]

/-- The score of every player, seen through `lookupPlayer`, is unchanged by
the whole horizontal-vertical-clamp pipeline. -/
theorem score_lookup_pipeline (ps : List (Nat × Player)) (pid : Nat) (dx dy : Int)
    (k : Nat) :
    (lookupPlayer (clampAll (moveY (moveX ps pid dx) pid dy)) k).map Player.score
      = (lookupPlayer ps k).map Player.score := by
  rw [score_lookup_clampAll, score_lookup_moveY, score_lookup_moveX]

theorem keys_pipeline (ps : List (Nat × Player)) (pid : Nat) (dx dy : Int) :
    (clampAll (moveY (moveX ps pid dx) pid dy)).map Prod.fst = ps.map Prod.fst := by
  rw [keys_clampAll, keys_moveY, keys_moveX]

/-! ## Bounds lemmas -/

/-- Every player's position is inside the world rectangle after the clamp. -/
theorem clampAll_inBounds (ps : List (Nat × Player)) :
    ∀ e ∈ clampAll ps, inBoundsP e.2 := by
  intro e he
  unfold clampAll at he
  obtain ⟨a, _, rfl⟩ := List.mem_map.mp he
  unfold inBoundsP
  simp only [PLAYER_SIZE, WIDTH, HEIGHT]
  norm_num

theorem updatePlayer_forall (P : Player → Prop) (ps : List (Nat × Player)) (pid : Nat)
    (f : Player → Player) (hf : ∀ p, P p → P (f p)) (h : ∀ e ∈ ps, P e.2) :
    ∀ e ∈ updatePlayer ps pid f, P e.2 := by
  intro e he
  unfold updatePlayer at he
  obtain ⟨a, ha, rfl⟩ := List.mem_map.mp he
  by_cases hc : a.1 = pid
  · simp only [hc, beq_self_eq_true, if_true]
    exact hf _ (h a ha)
  · have hb : (a.1 == pid) = false := by simp [hc]
    simp only [hb, Bool.false_eq_true, if_false]
    exact h a ha

/-! ## Push-resolution lemmas -/

theorem findCollisionX_ne_pid (ps : List (Nat × Player)) (pid : Nat) (px oy : Int)
    (tid : Nat) (h : findCollisionX ps pid px oy = some tid) : tid ≠ pid := by
  unfold findCollisionX at h
  rw [Option.map_eq_some'] at h
  obtain ⟨e, hfind, hfst⟩ := h
  have hp := List.find?_some hfind
  simp only [Bool.and_eq_true, bne_iff_ne, ne_eq] at hp
  rw [← hfst]
  exact hp.1.1

theorem findCollisionY_ne_pid (ps : List (Nat × Player)) (pid : Nat) (px py : Int)
    (tid : Nat) (h : findCollisionY ps pid px py = some tid) : tid ≠ pid := by
  unfold findCollisionY at h
  rw [Option.map_eq_some'] at h
  obtain ⟨e, hfind, hfst⟩ := h
  have hp := List.find?_some hfind
  simp only [Bool.and_eq_true, bne_iff_ne, ne_eq] at hp
  rw [← hfst]
  exact hp.1.1

/-- When the horizontal scan finds an overlapping neighbour, `moveX` is the
push: both records updated if the push is allowed, nothing at all updated if
it is blocked. -/
theorem moveX_push (ps : List (Nat × Player)) (pid tid : Nat) (dx : Int)
    (pl tgt : Player)
    (hpl : lookupPlayer ps pid = some pl)
    (hcol : findCollisionX ps pid (pl.x + dx) pl.y = some tid)
    (htgt : lookupPlayer ps tid = some tgt) :
    moveX ps pid dx =
      if pushAllowedX ps pid tid (tgt.x + dx) tgt.y then
        updatePlayer (updatePlayer ps tid fun p => { p with x := tgt.x + dx })
          pid fun p => { p with x := pl.x + dx }
      else ps := by
  unfold moveX
  rw [hpl]
  dsimp only
  rw [hcol]
  dsimp only
  rw [htgt]

/-- Vertical analogue of `moveX_push`. -/
theorem moveY_push (ps : List (Nat × Player)) (pid tid : Nat) (dy : Int)
    (pl tgt : Player)
    (hpl : lookupPlayer ps pid = some pl)
    (hcol : findCollisionY ps pid pl.x (pl.y + dy) = some tid)
    (htgt : lookupPlayer ps tid = some tgt) :
    moveY ps pid dy =
      if pushAllowedY ps pid tid tgt.x (tgt.y + dy) then
        updatePlayer (updatePlayer ps tid fun p => { p with y := tgt.y + dy })
          pid fun p => { p with y := pl.y + dy }
      else ps := by
  unfold moveY
  rw [hpl]
  dsimp only
  rw [hcol]
  dsimp only
  rw [htgt]

/-! ## Claim C1: push resolution per axis, and the worked two-player example -/

/-- **C1.**  On each axis (horizontal first, then vertical on the updated
horizontal position), when the first scanned other player overlaps the
mover's tentative coordinate, mover and neighbour both advance by the
displacement exactly when the neighbour's tentative coordinate lies within
`[PLAYER_SIZE/2, bound - PLAYER_SIZE/2]` and no third player overlaps the
neighbour's tentative position; if either check fails, the whole player list
is left unchanged on that axis.  In the concrete instance with A at
(100, 100), B at (160, 100), hitbox 64 and A moving `dx = 10, dy = 0`,
A ends at x = 110 and B at x = 170. -/
theorem claim_C1_push_atomicity (ps : List (Nat × Player)) (pid tid : Nat) (d : Int)
    (pl tgt : Player)
    (hpl : lookupPlayer ps pid = some pl)
    (htgt : lookupPlayer ps tid = some tgt) :
    (findCollisionX ps pid (pl.x + d) pl.y = some tid →
      (pushAllowedX ps pid tid (tgt.x + d) tgt.y = true →
        lookupPlayer (moveX ps pid d) pid = some { pl with x := pl.x + d } ∧
        lookupPlayer (moveX ps pid d) tid = some { tgt with x := tgt.x + d } ∧
        ∀ k, k ≠ pid → k ≠ tid →
          lookupPlayer (moveX ps pid d) k = lookupPlayer ps k) ∧
      (pushAllowedX ps pid tid (tgt.x + d) tgt.y = false →
        moveX ps pid d = ps)) ∧
    (findCollisionY ps pid pl.x (pl.y + d) = some tid →
      (pushAllowedY ps pid tid tgt.x (tgt.y + d) = true →
        lookupPlayer (moveY ps pid d) pid = some { pl with y := pl.y + d } ∧
        lookupPlayer (moveY ps pid d) tid = some { tgt with y := tgt.y + d } ∧
        ∀ k, k ≠ pid → k ≠ tid →
          lookupPlayer (moveY ps pid d) k = lookupPlayer ps k) ∧
      (pushAllowedY ps pid tid tgt.x (tgt.y + d) = false →
        moveY ps pid d = ps)) ∧
    (lookupPlayer ((processMove exState 1 10 0).1).players 1).map Player.x = some 110 ∧
    (lookupPlayer ((processMove exState 1 10 0).1).players 2).map Player.x = some 170 ∧
    (lookupPlayer ((processMove exState 1 10 0).1).players 1).map Player.y = some 100 ∧
    (lookupPlayer ((processMove exState 1 10 0).1).players 2).map Player.y = some 100 := by
  refine ⟨fun hcol => ?_, fun hcol => ?_, rfl, rfl, rfl, rfl⟩
  · have hne : tid ≠ pid := findCollisionX_ne_pid _ _ _ _ _ hcol
    have hch := moveX_push ps pid tid d pl tgt hpl hcol htgt
    constructor
    · intro hok
      rw [hch, if_pos hok]
      refine ⟨?_, ?_, fun k hk1 hk2 => ?_⟩
      · rw [lookup_updatePlayer_self, lookup_updatePlayer_ne _ _ _ _ (Ne.symm hne), hpl]
        rfl
      · rw [lookup_updatePlayer_ne _ _ _ _ hne, lookup_updatePlayer_self, htgt]
        rfl
      · rw [lookup_updatePlayer_ne _ _ _ _ hk1, lookup_updatePlayer_ne _ _ _ _ hk2]
    · intro hno
      rw [hch, if_neg (by rw [hno]; exact Bool.false_ne_true)]
  · have hne : tid ≠ pid := findCollisionY_ne_pid _ _ _ _ _ hcol
    have hch := moveY_push ps pid tid d pl tgt hpl hcol htgt
    constructor
    · intro hok
      rw [hch, if_pos hok]
      refine ⟨?_, ?_, fun k hk1 hk2 => ?_⟩
      · rw [lookup_updatePlayer_self, lookup_updatePlayer_ne _ _ _ _ (Ne.symm hne), hpl]
        rfl
      · rw [lookup_updatePlayer_ne _ _ _ _ hne, lookup_updatePlayer_self, htgt]
        rfl
      · rw [lookup_updatePlayer_ne _ _ _ _ hk1, lookup_updatePlayer_ne _ _ _ _ hk2]
    · intro hno
      rw [hch, if_neg (by rw [hno]; exact Bool.false_ne_true)]

/-- Witness for C1 at the worked example: A (id 1) collides with B (id 2)
when moving right by 10; the push is allowed and both advance. -/
theorem claim_C1_witness :
    lookupPlayer (moveX exState.players 1 10) 1 = some { exPlayerA with x := 110 } ∧
    lookupPlayer (moveX exState.players 1 10) 2 = some { exPlayerB with x := 170 } := by
  have h := ((claim_C1_push_atomicity exState.players 1 2 10 exPlayerA exPlayerB
      rfl rfl).1 rfl).1 (by decide)
  exact ⟨h.1, h.2.1⟩

/-! ## State invariants and their preservation by every operation -/

theorem hostInv_of_eq (s s' : ServerState)
    (hk : s'.players.map Prod.fst = s.players.map Prod.fst)
    (hh : s'.hostPlayerId = s.hostPlayerId) (hi : hostInv s) : hostInv s' := by
  constructor
  · intro hp
    have hmap : s.players.map Prod.fst = [] := by rw [← hk, hp]; rfl
    rw [hh]
    exact hi.1 (List.map_eq_nil_iff.mp hmap)
  · intro hp
    have h0 : s.players ≠ [] := by
      intro hz
      have hmap : s'.players.map Prod.fst = [] := by rw [hk, hz]; rfl
      exact hp (List.map_eq_nil_iff.mp hmap)
    rw [hh, hk]
    exact hi.2 h0

/-! ### Join -/

theorem joinedState_players (s : ServerState) (fields : List (String × JValue))
    (sx sy : Int) (rcolor : JValue) :
    (joinedState s fields sx sy rcolor).players
      = s.players ++ [(s.nextPlayerId,
          { x := sx, y := sy, score := 0,
            name := (objGet fields "name").getD
              (JValue.jstr ("Player" ++ toString s.nextPlayerId)),
            color := (objGet fields "color").getD rcolor })] := rfl

theorem handleFirstMessage_cases (s : ServerState) (pw : String) (msg : Option JValue)
    (sx sy : Int) (rcolor : JValue) :
    (handleFirstMessage s pw msg sx sy rcolor).1 = s ∨
    ∃ fields, (handleFirstMessage s pw msg sx sy rcolor).1
        = joinedState s fields sx sy rcolor ∧ s.gameState = GameState.lobby := by
  unfold handleFirstMessage
  cases msg with
  | none => left; rfl
  | some v =>
    cases v with
    | jobj fields =>
      by_cases h1 : isJoinWithPw fields pw
      · by_cases h2 : s.gameState = GameState.lobby
        · right
          refine ⟨fields, ?_, h2⟩
          simp [h1, h2]
        · left; simp [h1, h2]
      · left; simp [h1]
    | jnull => left; rfl
    | jbool b => left; rfl
    | jnum n => left; rfl
    | jstr t => left; rfl
    | jarr a => left; rfl

theorem clientsInv_joinedState (s : ServerState) (fields : List (String × JValue))
    (sx sy : Int) (rcolor : JValue) (hi : clientsInv s) :
    clientsInv (joinedState s fields sx sy rcolor) := by
  unfold clientsInv joinedState at *
  simp [hi]

theorem hostInv_joinedState (s : ServerState) (fields : List (String × JValue))
    (sx sy : Int) (rcolor : JValue) (hi : hostInv s) :
    hostInv (joinedState s fields sx sy rcolor) := by
  unfold hostInv joinedState at *
  constructor
  · intro hp; simp at hp
  · intro _
    by_cases h0 : s.players = []
    · simp [h0]
    · have hlen : ¬ (s.players.length + 1 = 1) := by
        intro hl
        have hz : s.players.length = 0 := by omega
        exact h0 (List.length_eq_zero.mp hz)
      simp only [hlen, if_false, List.map_append]
      exact List.mem_append_left _ (hi.2 h0)

theorem boundsInv_joinedState (s : ServerState) (fields : List (String × JValue))
    (sx sy : Int) (rcolor : JValue)
    (hx1 : PLAYER_SIZE ≤ sx) (hx2 : sx ≤ WIDTH - PLAYER_SIZE)
    (hy1 : PLAYER_SIZE ≤ sy) (hy2 : sy ≤ HEIGHT - PLAYER_SIZE)
    (hi : boundsInv s) : boundsInv (joinedState s fields sx sy rcolor) := by
  intro e he
  rw [joinedState_players] at he
  rcases List.mem_append.mp he with h | h
  · exact hi e h
  · rw [List.mem_singleton.mp h]
    unfold inBoundsP
    dsimp only
    simp only [PLAYER_SIZE, WIDTH, HEIGHT] at hx1 hx2 hy1 hy2 ⊢
    norm_num at hx1 hx2 hy1 hy2 ⊢
    omega

theorem resourcesInv_joinedState (s : ServerState) (fields : List (String × JValue))
    (sx sy : Int) (rcolor : JValue) (hi : resourcesInv s) :
    resourcesInv (joinedState s fields sx sy rcolor) := hi

/-! ### Move -/

theorem processMove_frame (s : ServerState) (pid : Nat) (dx dy : Int) :
    ((processMove s pid dx dy).1).clients = s.clients ∧
    ((processMove s pid dx dy).1).hostPlayerId = s.hostPlayerId ∧
    ((processMove s pid dx dy).1).gameState = s.gameState ∧
    ((processMove s pid dx dy).1).nextPlayerId = s.nextPlayerId ∧
    ((processMove s pid dx dy).1).nextResourceId = s.nextResourceId ∧
    ((processMove s pid dx dy).1).players.map Prod.fst = s.players.map Prod.fst ∧
    (∀ r ∈ ((processMove s pid dx dy).1).resources, r ∈ s.resources) := by
  unfold processMove
  split
  · split
    · refine ⟨rfl, rfl, rfl, rfl, rfl, ?_, ?_⟩
      · rw [keys_updatePlayer, keys_pipeline]
      · intro r hr
        exact (List.mem_filter.mp hr).1
    · exact ⟨rfl, rfl, rfl, rfl, rfl, keys_pipeline .., fun r hr => hr⟩
  · exact ⟨rfl, rfl, rfl, rfl, rfl, rfl, fun r hr => hr⟩

theorem boundsInv_processMove (s : ServerState) (pid : Nat) (dx dy : Int)
    (hi : boundsInv s) : boundsInv ((processMove s pid dx dy).1) := by
  unfold processMove
  split
  · split
    · intro e he
      dsimp only at he
      refine updatePlayer_forall inBoundsP _ _ _ ?_ (clampAll_inBounds _) e he
      exact fun p hp => hp
    · intro e he
      exact clampAll_inBounds _ e he
  · exact hi

theorem processMoveCrashDy_frame (s : ServerState) (pid : Nat) (dx : Int) :
    (processMoveCrashDy s pid dx).clients = s.clients ∧
    (processMoveCrashDy s pid dx).hostPlayerId = s.hostPlayerId ∧
    (processMoveCrashDy s pid dx).gameState = s.gameState ∧
    (processMoveCrashDy s pid dx).nextPlayerId = s.nextPlayerId ∧
    (processMoveCrashDy s pid dx).nextResourceId = s.nextResourceId ∧
    (processMoveCrashDy s pid dx).resources = s.resources ∧
    (processMoveCrashDy s pid dx).players.map Prod.fst = s.players.map Prod.fst := by
  unfold processMoveCrashDy
  split
  · exact ⟨rfl, rfl, rfl, rfl, rfl, rfl, keys_moveX ..⟩
  · exact ⟨rfl, rfl, rfl, rfl, rfl, rfl, rfl⟩

/-! ### start_game -/

theorem processStartGame_frame (s : ServerState) (pid : Nat) (dur now : Int) :
    ((processStartGame s pid dur now).1).players = s.players ∧
    ((processStartGame s pid dur now).1).clients = s.clients ∧
    ((processStartGame s pid dur now).1).hostPlayerId = s.hostPlayerId ∧
    ((processStartGame s pid dur now).1).resources = s.resources ∧
    ((processStartGame s pid dur now).1).nextPlayerId = s.nextPlayerId ∧
    ((processStartGame s pid dur now).1).nextResourceId = s.nextResourceId := by
  unfold processStartGame
  split
  · exact ⟨rfl, rfl, rfl, rfl, rfl, rfl⟩
  · exact ⟨rfl, rfl, rfl, rfl, rfl, rfl⟩

theorem processStartGameCrash_frame (s : ServerState) (pid : Nat) (now : Int) :
    (processStartGameCrash s pid now).players = s.players ∧
    (processStartGameCrash s pid now).clients = s.clients ∧
    (processStartGameCrash s pid now).hostPlayerId = s.hostPlayerId ∧
    (processStartGameCrash s pid now).resources = s.resources ∧
    (processStartGameCrash s pid now).nextPlayerId = s.nextPlayerId ∧
    (processStartGameCrash s pid now).nextResourceId = s.nextResourceId := by
  unfold processStartGameCrash
  split
  · exact ⟨rfl, rfl, rfl, rfl, rfl, rfl⟩
  · exact ⟨rfl, rfl, rfl, rfl, rfl, rfl⟩

/-! ### Timers and spawner -/

theorem timerToLeaderboard_frame (s : ServerState) :
    (timerToLeaderboard s).players = s.players ∧
    (timerToLeaderboard s).clients = s.clients ∧
    (timerToLeaderboard s).hostPlayerId = s.hostPlayerId ∧
    (timerToLeaderboard s).nextPlayerId = s.nextPlayerId ∧
    (timerToLeaderboard s).nextResourceId = s.nextResourceId ∧
    (∀ r ∈ (timerToLeaderboard s).resources, r ∈ s.resources) := by
  unfold timerToLeaderboard
  split
  · exact ⟨rfl, rfl, rfl, rfl, rfl, fun r hr => absurd hr (List.not_mem_nil r)⟩
  · exact ⟨rfl, rfl, rfl, rfl, rfl, fun r hr => hr⟩

theorem spawnTick_frame (s : ServerState) (rx ry : Int) :
    ((spawnTick s rx ry).1).players = s.players ∧
    ((spawnTick s rx ry).1).clients = s.clients ∧
    ((spawnTick s rx ry).1).hostPlayerId = s.hostPlayerId ∧
    ((spawnTick s rx ry).1).gameState = s.gameState ∧
    ((spawnTick s rx ry).1).nextPlayerId = s.nextPlayerId := by
  unfold spawnTick
  split
  · exact ⟨rfl, rfl, rfl, rfl, rfl⟩
  · exact ⟨rfl, rfl, rfl, rfl, rfl⟩

theorem spawnTick_resources_mem (s : ServerState) (rx ry : Int) (r : Resource)
    (h : r ∈ ((spawnTick s rx ry).1).resources) :
    r ∈ s.resources ∨ r = { id := s.nextResourceId, x := rx, y := ry } := by
  unfold spawnTick at h
  split at h
  · rcases List.mem_append.mp h with h1 | h1
    · left; exact h1
    · right; exact List.mem_singleton.mp h1
  · left; exact h

/-! ### Disconnect -/

theorem clientsInv_processDisconnect (s : ServerState) (pid : Nat)
    (hi : clientsInv s) : clientsInv (processDisconnect s pid) := by
  unfold processDisconnect
  split
  · exact hi
  · split
    · show s.clients.filter (fun c => c != pid) = (delKey s.players pid).map Prod.fst
      rw [keys_delKey, hi]
    · show s.clients.filter (fun c => c != pid) = (delKey s.players pid).map Prod.fst
      rw [keys_delKey, hi]

theorem hostInv_processDisconnect (s : ServerState) (pid : Nat)
    (hi : hostInv s) : hostInv (processDisconnect s pid) := by
  unfold processDisconnect
  split
  · exact hi
  case h_2 pl heq =>
    have hmem : pid ∈ s.players.map Prod.fst := by
      rw [← lookupPlayer_isSome_iff, heq]; rfl
    have hne : s.players ≠ [] := by
      intro h0
      rw [h0] at hmem
      exact absurd hmem (List.not_mem_nil pid)
    split
    case isTrue hEmpty =>
      constructor
      · intro _; rfl
      · intro hp
        exact absurd (List.isEmpty_iff.mp hEmpty) hp
    case isFalse hNE =>
      have hne' : delKey s.players pid ≠ [] := by
        intro h0
        exact hNE (by rw [h0]; rfl)
      constructor
      · intro hp; exact absurd hp hne'
      · intro _
        by_cases hph : pid = s.hostPlayerId
        · show (if pid = s.hostPlayerId then minKey (delKey s.players pid)
              else s.hostPlayerId) ∈ (delKey s.players pid).map Prod.fst
          rw [if_pos hph]
          exact minKey_mem _ hne'
        · show (if pid = s.hostPlayerId then minKey (delKey s.players pid)
              else s.hostPlayerId) ∈ (delKey s.players pid).map Prod.fst
          rw [if_neg hph]
          exact mem_keys_delKey _ _ _ (hi.2 hne) (fun hh => hph hh.symm)

theorem processDisconnect_frame (s : ServerState) (pid : Nat) :
    (processDisconnect s pid).nextResourceId = s.nextResourceId ∧
    (∀ r ∈ (processDisconnect s pid).resources, r ∈ s.resources) ∧
    (∀ e ∈ (processDisconnect s pid).players, e ∈ s.players) := by
  unfold processDisconnect
  split
  · exact ⟨rfl, fun r hr => hr, fun e he => he⟩
  · split
    · refine ⟨rfl, ?_, ?_⟩
      · intro r hr; exact absurd hr (List.not_mem_nil r)
      · intro e he; exact (List.mem_filter.mp he).1
    · refine ⟨rfl, fun r hr => hr, ?_⟩
      · intro e he; exact (List.mem_filter.mp he).1

/-! ### Invariants along the transition system -/

theorem clientsInv_goodStep (s s' : ServerState) (h : GoodStep s s')
    (hi : clientsInv s) : clientsInv s' := by
  cases h with
  | firstMsg pw msg sx sy rc hx1 hx2 hy1 hy2 =>
    rcases handleFirstMessage_cases s pw msg sx sy rc with hc | ⟨fields, hc, _⟩
    · rw [hc]; exact hi
    · rw [hc]; exact clientsInv_joinedState _ _ _ _ _ hi
  | move pid dx dy =>
    have hf := processMove_frame s pid dx dy
    unfold clientsInv
    rw [hf.1, hf.2.2.2.2.2.1]
    exact hi
  | startGame pid dur now =>
    have hf := processStartGame_frame s pid dur now
    unfold clientsInv
    rw [hf.2.1, hf.1]
    exact hi
  | startGameCrash pid now =>
    have hf := processStartGameCrash_frame s pid now
    unfold clientsInv
    rw [hf.2.1, hf.1]
    exact hi
  | disconnect pid => exact clientsInv_processDisconnect _ _ hi
  | timerLb =>
    have hf := timerToLeaderboard_frame s
    unfold clientsInv
    rw [hf.2.1, hf.1]
    exact hi
  | timerReset => rfl
  | spawn rx ry hx1 hx2 hy1 hy2 =>
    have hf := spawnTick_frame s rx ry
    unfold clientsInv
    rw [hf.2.1, hf.1]
    exact hi

theorem clientsInv_step (s s' : ServerState) (h : Step s s') (hi : clientsInv s) :
    clientsInv s' := by
  cases h with
  | good _ hg => exact clientsInv_goodStep _ _ hg hi
  | moveCrash pid dx =>
    have hf := processMoveCrashDy_frame s pid dx
    unfold clientsInv
    rw [hf.1, hf.2.2.2.2.2.2]
    exact hi

theorem clientsInv_reachable (s : ServerState) (h : Reachable s) : clientsInv s := by
  induction h with
  | init => rfl
  | step t t' h hs ih => exact clientsInv_step _ _ hs ih

theorem hostInv_goodStep (s s' : ServerState) (h : GoodStep s s')
    (hi : hostInv s) : hostInv s' := by
  cases h with
  | firstMsg pw msg sx sy rc hx1 hx2 hy1 hy2 =>
    rcases handleFirstMessage_cases s pw msg sx sy rc with hc | ⟨fields, hc, _⟩
    · rw [hc]; exact hi
    · rw [hc]; exact hostInv_joinedState _ _ _ _ _ hi
  | move pid dx dy =>
    have hf := processMove_frame s pid dx dy
    exact hostInv_of_eq _ _ hf.2.2.2.2.2.1 hf.2.1 hi
  | startGame pid dur now =>
    have hf := processStartGame_frame s pid dur now
    exact hostInv_of_eq _ _ (by rw [hf.1]) hf.2.2.1 hi
  | startGameCrash pid now =>
    have hf := processStartGameCrash_frame s pid now
    exact hostInv_of_eq _ _ (by rw [hf.1]) hf.2.2.1 hi
  | disconnect pid => exact hostInv_processDisconnect _ _ hi
  | timerLb =>
    have hf := timerToLeaderboard_frame s
    exact hostInv_of_eq _ _ (by rw [hf.1]) hf.2.2.1 hi
  | timerReset => exact ⟨fun _ => rfl, fun hp => absurd rfl hp⟩
  | spawn rx ry hx1 hx2 hy1 hy2 =>
    have hf := spawnTick_frame s rx ry
    exact hostInv_of_eq _ _ (by rw [hf.1]) hf.2.2.1 hi

theorem hostInv_step (s s' : ServerState) (h : Step s s') (hi : hostInv s) :
    hostInv s' := by
  cases h with
  | good _ hg => exact hostInv_goodStep _ _ hg hi
  | moveCrash pid dx =>
    have hf := processMoveCrashDy_frame s pid dx
    exact hostInv_of_eq _ _ hf.2.2.2.2.2.2 hf.2.1 hi

theorem hostInv_reachable (s : ServerState) (h : Reachable s) : hostInv s := by
  induction h with
  | init => exact ⟨fun _ => rfl, fun hp => absurd rfl hp⟩
  | step t t' h hs ih => exact hostInv_step _ _ hs ih

theorem resourcesInv_goodStep (s s' : ServerState) (h : GoodStep s s')
    (hi : resourcesInv s) : resourcesInv s' := by
  cases h with
  | firstMsg pw msg sx sy rc hx1 hx2 hy1 hy2 =>
    rcases handleFirstMessage_cases s pw msg sx sy rc with hc | ⟨fields, hc, _⟩
    · rw [hc]; exact hi
    · rw [hc]; exact resourcesInv_joinedState _ _ _ _ _ hi
  | move pid dx dy =>
    have hf := processMove_frame s pid dx dy
    intro r hr
    exact hi r (hf.2.2.2.2.2.2 r hr)
  | startGame pid dur now =>
    have hf := processStartGame_frame s pid dur now
    intro r hr
    rw [hf.2.2.2.1] at hr
    exact hi r hr
  | startGameCrash pid now =>
    have hf := processStartGameCrash_frame s pid now
    intro r hr
    rw [hf.2.2.2.1] at hr
    exact hi r hr
  | disconnect pid =>
    have hf := processDisconnect_frame s pid
    intro r hr
    exact hi r (hf.2.1 r hr)
  | timerLb =>
    have hf := timerToLeaderboard_frame s
    intro r hr
    exact hi r (hf.2.2.2.2.2 r hr)
  | timerReset => exact fun r hr => absurd hr (List.not_mem_nil r)
  | spawn rx ry hx1 hx2 hy1 hy2 =>
    intro r hr
    rcases spawnTick_resources_mem s rx ry r hr with h1 | h1
    · exact hi r h1
    · rw [h1]
      exact ⟨hx1, hx2, hy1, hy2⟩

theorem resourcesInv_step (s s' : ServerState) (h : Step s s')
    (hi : resourcesInv s) : resourcesInv s' := by
  cases h with
  | good _ hg => exact resourcesInv_goodStep _ _ hg hi
  | moveCrash pid dx =>
    have hf := processMoveCrashDy_frame s pid dx
    intro r hr
    rw [hf.2.2.2.2.2.1] at hr
    exact hi r hr

theorem resourcesInv_reachable (s : ServerState) (h : Reachable s) :
    resourcesInv s := by
  induction h with
  | init => exact fun r hr => absurd hr (List.not_mem_nil r)
  | step t t' h hs ih => exact resourcesInv_step _ _ hs ih

theorem boundsInv_goodStep (s s' : ServerState) (h : GoodStep s s')
    (hi : boundsInv s) : boundsInv s' := by
  cases h with
  | firstMsg pw msg sx sy rc hx1 hx2 hy1 hy2 =>
    rcases handleFirstMessage_cases s pw msg sx sy rc with hc | ⟨fields, hc, _⟩
    · rw [hc]; exact hi
    · rw [hc]; exact boundsInv_joinedState _ _ _ _ _ hx1 hx2 hy1 hy2 hi
  | move pid dx dy => exact boundsInv_processMove _ _ _ _ hi
  | startGame pid dur now =>
    have hf := processStartGame_frame s pid dur now
    intro e he
    rw [hf.1] at he
    exact hi e he
  | startGameCrash pid now =>
    have hf := processStartGameCrash_frame s pid now
    intro e he
    rw [hf.1] at he
    exact hi e he
  | disconnect pid =>
    have hf := processDisconnect_frame s pid
    intro e he
    exact hi e (hf.2.2 e he)
  | timerLb =>
    have hf := timerToLeaderboard_frame s
    intro e he
    rw [hf.1] at he
    exact hi e he
  | timerReset => exact fun e he => absurd he (List.not_mem_nil e)
  | spawn rx ry hx1 hx2 hy1 hy2 =>
    have hf := spawnTick_frame s rx ry
    intro e he
    rw [hf.1] at he
    exact hi e he

theorem boundsInv_reachableGood (s : ServerState) (h : ReachableGood s) :
    boundsInv s := by
  induction h with
  | init => exact fun e he => absurd he (List.not_mem_nil e)
  | step t t' h hs ih => exact boundsInv_goodStep _ _ hs ih

/-! ## Claim C3: phase gating of move and start_game -/

/-- **C3.**  A `move` message processed while the phase is lobby or
leaderboard, or for a player identity no longer in the player map, returns
the state unchanged with `broadcast_needed = false`; a `start_game` message
from a non-host identity, or while the phase is not lobby, likewise leaves
the whole state (phase and both timestamps included) unchanged and requests
no broadcast. -/
theorem claim_C3_phase_gating (s : ServerState) (pid : Nat) (dx dy : Int)
    (pid2 : Nat) (dur now : Int)
    (h1 : s.gameState = GameState.lobby ∨ s.gameState = GameState.leaderboard ∨
          lookupPlayer s.players pid = none)
    (h2 : pid2 ≠ s.hostPlayerId ∨ s.gameState ≠ GameState.lobby) :
    processMove s pid dx dy = (s, false) ∧
    processStartGame s pid2 dur now = (s, false) := by
  constructor
  · unfold processMove
    rw [if_neg]
    rintro ⟨hg, hs⟩
    rcases h1 with h | h | h
    · rw [h] at hg; exact absurd hg (by decide)
    · rw [h] at hg; exact absurd hg (by decide)
    · rw [h] at hs; exact absurd hs (by decide)
  · unfold processStartGame
    rw [if_neg]
    rintro ⟨hh, hg⟩
    rcases h2 with h | h
    · exact h hh
    · exact h hg

/-- Witness for C3 at the initial state (phase lobby, no players, host 0). -/
theorem claim_C3_witness :
    processMove initState 1 5 5 = (initState, false) ∧
    processStartGame initState 1 2 0 = (initState, false) :=
  claim_C3_phase_gating initState 1 5 5 1 2 0 (Or.inl rfl) (Or.inl (by decide))

/-! ## Claim C9: gate discipline of the locked sections -/

/-- **C9 counterexample.**  The chat branch awaits `broadcast_message` at
server.py line 491, inside the locked section acquired at line 354: a
broadcast is sent while the gate is held, so the claim that no send ever
happens under the gate is false. -/
theorem claim_C9_counterexample : sendsWhileHeld chatTrace = true := by decide

/-- **C9 (amended).**  Every inspect-then-mutate sequence mutates only while
holding the gate, and the move, start_game, successful-join, wrong-password,
disconnect, spawner and leaderboard paths all release the gate before any
network send; but three paths do send while the gate is held: the chat
relay, the join-refusal reply when a game is in progress, and the close
frames of the timer's final reset. -/
theorem claim_C9_gate_discipline :
    (mutatesOutsideLock moveTrace = false ∧
     mutatesOutsideLock chatTrace = false ∧
     mutatesOutsideLock startGameTrace = false ∧
     mutatesOutsideLock joinSuccessTrace = false ∧
     mutatesOutsideLock joinRejectInProgressTrace = false ∧
     mutatesOutsideLock joinRejectWrongPasswordTrace = false ∧
     mutatesOutsideLock disconnectTrace = false ∧
     mutatesOutsideLock spawnerTrace = false ∧
     mutatesOutsideLock timerLeaderboardTrace = false ∧
     mutatesOutsideLock timerResetTrace = false) ∧
    (sendsWhileHeld moveTrace = false ∧
     sendsWhileHeld startGameTrace = false ∧
     sendsWhileHeld joinSuccessTrace = false ∧
     sendsWhileHeld joinRejectWrongPasswordTrace = false ∧
     sendsWhileHeld disconnectTrace = false ∧
     sendsWhileHeld spawnerTrace = false ∧
     sendsWhileHeld timerLeaderboardTrace = false) ∧
    (sendsWhileHeld chatTrace = true ∧
     sendsWhileHeld joinRejectInProgressTrace = true ∧
     sendsWhileHeld timerResetTrace = true) := by
  refine ⟨⟨?_, ?_, ?_, ?_, ?_, ?_, ?_, ?_, ?_, ?_⟩,
          ⟨?_, ?_, ?_, ?_, ?_, ?_, ?_⟩, ⟨?_, ?_, ?_⟩⟩ <;> decide

/-! ## Claim C8: the coin spawner -/

/-- **C8 counterexample.**  The claim asserts spawn coordinates uniform in
`[16, 784] × [16, 584]` (world bounds minus the coin's half size); the code
draws `random.randint(RESOURCE_SIZE, WIDTH - RESOURCE_SIZE)`, i.e. from
`[32, 768] × [32, 568]` — the point (16, 16) is in the claimed support but
outside the code's. -/
theorem claim_C8_counterexample :
    claimSpawnSupport 16 16 ∧ ¬ codeSpawnSupport 16 16 := ⟨by decide, by decide⟩

/-- **C8 (amended).**  On every spawner tick with at least one connection
and phase playing, exactly one coin is appended with the next sequential
identity (which is then incremented) and the tick requests a broadcast; on
every other tick the state is returned untouched (no backlog).  The random
coordinates are drawn from `[32, 768] × [32, 568]` — world bounds reduced by
the coin's FULL size, not its half — and consequently every coin of every
reachable state lies in that rectangle. -/
theorem claim_C8_spawner (s : ServerState) (rx ry : Int)
    (hc : s.clients ≠ []) (hp : s.gameState = GameState.playing)
    (s2 : ServerState) (hr : Reachable s2) :
    ((spawnTick s rx ry).1.resources
        = s.resources ++ [{ id := s.nextResourceId, x := rx, y := ry }]) ∧
    (spawnTick s rx ry).1.nextResourceId = s.nextResourceId + 1 ∧
    (spawnTick s rx ry).1.players = s.players ∧
    (spawnTick s rx ry).2 = true ∧
    (∀ t : ServerState, ∀ rx2 ry2 : Int,
        t.clients = [] ∨ t.gameState ≠ GameState.playing →
        spawnTick t rx2 ry2 = (t, false)) ∧
    (∀ r ∈ s2.resources, codeSpawnSupport r.x r.y) := by
  refine ⟨?_, ?_, ?_, ?_, ?_, resourcesInv_reachable s2 hr⟩
  · unfold spawnTick; rw [if_pos ⟨hc, hp⟩]
  · unfold spawnTick; rw [if_pos ⟨hc, hp⟩]
  · unfold spawnTick; rw [if_pos ⟨hc, hp⟩]
  · unfold spawnTick; rw [if_pos ⟨hc, hp⟩]
  · intro t rx2 ry2 h
    unfold spawnTick
    rw [if_neg]
    rintro ⟨h1, h2⟩
    rcases h with h | h
    · exact h1 h
    · exact h h2

/-- Witness for C8: one tick during the single-player game of `st2`. -/
theorem claim_C8_witness :
    (spawnTick st2 100 100).1.nextResourceId = st2.nextResourceId + 1 :=
  (claim_C8_spawner st2 100 100 (by decide) rfl initState Reachable.init).2.1

/-! ## Claim C10: non-join first messages -/

/-- **C10 counterexample.**  The first message `5` is syntactically valid
JSON and is not a join, yet the server does not reply `join_fail`:
`json.loads` yields the integer 5 and `join_data.get("type")` raises
`AttributeError`, crashing the handler with no reply at all. -/
theorem claim_C10_counterexample :
    (handleFirstMessage initState "pw" (some (JValue.jnum 5)) 100 100
        JValue.jnull).2 = JoinOutcome.crashed ∧
    JoinOutcome.isFail (handleFirstMessage initState "pw" (some (JValue.jnum 5))
        100 100 JValue.jnull).2 = false := ⟨rfl, rfl⟩

/-- **C10 (amended).**  Every first message that parses to a JSON object and
is not a join carrying the configured password — a message of another type,
or a join missing the password — is answered `join_fail` with reason exactly
"Wrong password" followed by a close, with the state (players, connections,
counters) completely unchanged; a first message that is valid JSON but not
an object instead crashes the handler without any reply, also changing
nothing. -/
theorem claim_C10_wrong_password (s : ServerState) (pw : String)
    (fields : List (String × JValue)) (sx sy : Int) (rc : JValue)
    (h : isJoinWithPw fields pw = false) :
    handleFirstMessage s pw (some (JValue.jobj fields)) sx sy rc
      = (s, JoinOutcome.rejected "Wrong password") ∧
    (∀ v : JValue, v.isObj = false →
      handleFirstMessage s pw (some v) sx sy rc = (s, JoinOutcome.crashed)) := by
  constructor
  · unfold handleFirstMessage
    simp [h]
  · intro v hv
    cases v with
    | jobj fields2 => simp [JValue.isObj] at hv
    | jnull => rfl
    | jbool b => rfl
    | jnum n => rfl
    | jstr t => rfl
    | jarr a => rfl

/-- Witness for C10: a `move`-typed first message is refused with
"Wrong password" and no state change. -/
theorem claim_C10_witness :
    handleFirstMessage initState "pw"
        (some (JValue.jobj [("type", JValue.jstr "move")])) 100 100 JValue.jnull
      = (initState, JoinOutcome.rejected "Wrong password") :=
  (claim_C10_wrong_password initState "pw" [("type", JValue.jstr "move")]
    100 100 JValue.jnull rfl).1

/-! ## Claim C7: malformed and unknown messages -/

/-- **C7 counterexample.**  A join-phase first message whose raw text is not
valid JSON gets no `join_fail` reply: `json.loads` raises (uncaught by the
handler, which catches only `ConnectionClosed`), so the handler crashes
before any reply can be sent. -/
theorem claim_C7_counterexample :
    (handleFirstMessage initState "pw" none 100 100 JValue.jnull).2
        = JoinOutcome.crashed ∧
    JoinOutcome.isFail
      (handleFirstMessage initState "pw" none 100 100 JValue.jnull).2
        = false := ⟨rfl, rfl⟩

/-- **C7 (amended).**  A join-phase first message that parses to a JSON
object but is not a join with the right password receives `join_fail` and a
close; a malformed join-phase message crashes the handler with no reply.
Inside the active loop, a message that parses to an object whose `"type"`
value is a string other than move/chat/start_game is silently ignored —
state unchanged, no reply, no broadcast, no crash; but malformed JSON or an
object without a `"type"` key crashes the handler (terminating its
message loop) instead of being silently ignored. -/
theorem claim_C7_protocol_violations (s : ServerState) (pw : String)
    (fields fields2 fields3 : List (String × JValue)) (sx sy : Int) (rc : JValue)
    (pid : Nat) (now : Int) (t : String)
    (hnj : isJoinWithPw fields pw = false)
    (hty : objGet fields2 "type" = some (JValue.jstr t))
    (ht1 : t ≠ "move") (ht2 : t ≠ "chat") (ht3 : t ≠ "start_game")
    (hnoty : objGet fields3 "type" = none) :
    handleFirstMessage s pw (some (JValue.jobj fields)) sx sy rc
        = (s, JoinOutcome.rejected "Wrong password") ∧
    handleFirstMessage s pw none sx sy rc = (s, JoinOutcome.crashed) ∧
    processLoopMessage s pid (some (JValue.jobj fields2)) now
        = (s, LoopOutcome.ignored) ∧
    processLoopMessage s pid (some (JValue.jobj fields3)) now
        = (s, LoopOutcome.crashed) ∧
    processLoopMessage s pid none now = (s, LoopOutcome.crashed) := by
  refine ⟨?_, rfl, ?_, ?_, rfl⟩
  · unfold handleFirstMessage
    simp [hnj]
  · unfold processLoopMessage
    dsimp only
    rw [hty]
    dsimp only
    simp [ht1, ht2, ht3]
  · unfold processLoopMessage
    dsimp only
    rw [hnoty]

/-- Witness for C7: an unknown in-loop type `"ping"` is silently ignored. -/
theorem claim_C7_witness :
    processLoopMessage initState 1
        (some (JValue.jobj [("type", JValue.jstr "ping")])) 0
      = (initState, LoopOutcome.ignored) :=
  (claim_C7_protocol_violations initState "pw" [] [("type", JValue.jstr "ping")]
    [] 100 100 JValue.jnull 1 0 "ping" rfl rfl (by decide) (by decide)
    (by decide) rfl).2.2.1

/-! ## Claim C2: the bounds invariant -/

/-- **C2 counterexample.**  There is a reachable state with a player outside
the world bounds: the sole player, at (700, 100) during play, sent
`{"type": "move", "dx": 500}` with no `dy`.  The horizontal pass committed
x = 1200, then `data["dy"]` raised `KeyError` (server.py line 417) before
the clamp (lines 456-458) could run; the lock is released by the `finally`
and the out-of-bounds position is visible until the disconnect cleanup
removes the player. -/
theorem claim_C2_counterexample :
    Reachable badState ∧
    (lookupPlayer badState.players 1).map Player.x = some 1200 ∧
    ¬ (1200 : Int) ≤ WIDTH - PLAYER_SIZE / 2 := by
  refine ⟨?_, rfl, by decide⟩
  exact Reachable.step _ _
    (Reachable.step _ _
      (Reachable.step _ _ Reachable.init
        (Step.good _ _ (GoodStep.firstMsg initState "pw"
          (some (JValue.jobj joinFields)) 700 100 JValue.jnull
          (by decide) (by decide) (by decide) (by decide))))
      (Step.good _ _ (GoodStep.startGame st1 1 1 0)))
    (Step.moveCrash st2 1 500)

/-- **C2 (amended).**  The join handler spawns players inside the rectangle,
and every move message carrying a numeric dx and dy ends with the clamp, so
along executions in which every move message carries both displacement
values, every reachable state keeps every player inside
`[32, 768] × [32, 568]`; moreover the clamp forces every player of the
post-state of any completed move into that rectangle, whatever the
pre-state and however large dx/dy.  (A move with dx but no numeric dy
crashes between the horizontal pass and the clamp and can leave the mover
out of bounds — see the counterexample.) -/
theorem claim_C2_bounds_invariant (s : ServerState) (h : ReachableGood s)
    (s2 : ServerState) (pid : Nat) (dx dy : Int)
    (hp : s2.gameState = GameState.playing)
    (hs : (lookupPlayer s2.players pid).isSome = true) :
    (∀ e ∈ s.players, inBoundsP e.2) ∧
    (∀ e ∈ ((processMove s2 pid dx dy).1).players, inBoundsP e.2) ∧
    PLAYER_SIZE / 2 = 32 ∧ WIDTH - PLAYER_SIZE / 2 = 768 ∧
    HEIGHT - PLAYER_SIZE / 2 = 568 := by
  refine ⟨boundsInv_reachableGood s h, ?_, by decide, by decide, by decide⟩
  unfold processMove
  rw [if_pos ⟨hp, hs⟩]
  split
  · intro e he
    dsimp only at he
    refine updatePlayer_forall inBoundsP _ _ _ ?_ (clampAll_inBounds _) e he
    exact fun p hp2 => hp2
  · intro e he
    exact clampAll_inBounds _ e he

/-- Witness for C2 at the one-player state `st1` (player spawned at
(700, 100)) and a completed move from the running game `st2`. -/
theorem claim_C2_witness :
    (∀ e ∈ st1.players, inBoundsP e.2) ∧
    (∀ e ∈ ((processMove st2 1 500 0).1).players, inBoundsP e.2) := by
  have h := claim_C2_bounds_invariant st1
    (ReachableGood.step _ _ ReachableGood.init
      (GoodStep.firstMsg initState "pw" (some (JValue.jobj joinFields)) 700 100
        JValue.jnull (by decide) (by decide) (by decide) (by decide)))
    st2 1 500 0 rfl rfl
  exact ⟨h.1, h.2.1⟩

/-! ## Claim C4: host continuity -/

/-- **C4.**  In every reachable state the host is 0 when no players exist
and otherwise the identity of a registered player; the first join into an
empty lobby makes the newcomer host; and when the host disconnects while
other players remain, the promoted host is the minimum remaining identity
(a genuine lower bound of the surviving keys). -/
theorem claim_C4_host_continuity (s : ServerState) (h : Reachable s)
    (pw : String) (fields : List (String × JValue)) (sx sy : Int) (rc : JValue)
    (pid : Nat) :
    (s.players = [] → s.hostPlayerId = 0) ∧
    (s.players ≠ [] → s.hostPlayerId ∈ s.players.map Prod.fst) ∧
    (s.players = [] → s.gameState = GameState.lobby →
      isJoinWithPw fields pw = true →
      (handleFirstMessage s pw (some (JValue.jobj fields)) sx sy rc).1.hostPlayerId
        = s.nextPlayerId) ∧
    (pid = s.hostPlayerId → (lookupPlayer s.players pid).isSome = true →
      delKey s.players pid ≠ [] →
      (processDisconnect s pid).hostPlayerId = minKey (delKey s.players pid) ∧
      ∀ k ∈ (delKey s.players pid).map Prod.fst,
        minKey (delKey s.players pid) ≤ k) := by
  have hh := hostInv_reachable s h
  refine ⟨hh.1, hh.2, ?_, ?_⟩
  · intro hempty hlobby hjoin
    unfold handleFirstMessage
    simp only [hjoin, if_true, hlobby]
    simp only [ne_eq, not_true_eq_false, if_false]
    unfold joinedState
    simp [hempty]
  · intro hph hsome hne
    obtain ⟨pl, hpl⟩ := Option.isSome_iff_exists.mp hsome
    have hE : ¬ (delKey s.players pid).isEmpty = true := by
      intro hEmpty
      exact hne (List.isEmpty_iff.mp hEmpty)
    constructor
    · unfold processDisconnect
      rw [hpl]
      dsimp only
      rw [if_neg hE]
      dsimp only
      rw [if_pos hph]
    · exact fun k hk => minKey_le _ _ hk

/-- Witness for C4: the first player joining the empty lobby becomes host. -/
theorem claim_C4_witness :
    (handleFirstMessage initState "pw" (some (JValue.jobj joinFields)) 100 100
      JValue.jnull).1.hostPlayerId = initState.nextPlayerId :=
  (claim_C4_host_continuity initState Reachable.init "pw" joinFields 100 100
    JValue.jnull 1).2.2.1 rfl rfl rfl

/-! ## Claim C5: resource collection -/

/-- **C5.**  After a move settles, the surviving resources are exactly the
order-preserving filter of those NOT within 32 pixels (both axes, strict) of
the mover's final position — each collected coin is removed exactly once —
and the mover's score grows by exactly the number of collected coins.  Every
other player's score is untouched; and neither a spawner tick nor a
start_game removes any resource or touches any player record, so a
stationary player sitting on a coin collects nothing until it sends its own
move. -/
theorem claim_C5_resource_collection (s : ServerState) (pid : Nat) (dx dy : Int)
    (pl : Player)
    (hplay : s.gameState = GameState.playing)
    (hpl : lookupPlayer s.players pid = some pl) :
    (∃ pl', lookupPlayer ((processMove s pid dx dy).1).players pid = some pl' ∧
      ((processMove s pid dx dy).1).resources
          = s.resources.filter (fun r => !coinHit pl'.x pl'.y r) ∧
      pl'.score = pl.score + (s.resources.filter (coinHit pl'.x pl'.y)).length) ∧
    (∀ k, k ≠ pid →
      (lookupPlayer ((processMove s pid dx dy).1).players k).map Player.score
        = (lookupPlayer s.players k).map Player.score) ∧
    (∀ rx ry : Int, ((spawnTick s rx ry).1).players = s.players ∧
      ∀ r ∈ s.resources, r ∈ ((spawnTick s rx ry).1).resources) ∧
    (∀ pid2 : Nat, ∀ dur now : Int,
      ((processStartGame s pid2 dur now).1).players = s.players ∧
      ((processStartGame s pid2 dur now).1).resources = s.resources) := by
  have hguard : s.gameState = GameState.playing ∧
      (lookupPlayer s.players pid).isSome = true := ⟨hplay, by rw [hpl]; rfl⟩
  have hsome3 : (lookupPlayer (clampAll (moveY (moveX s.players pid dx) pid dy))
      pid).isSome = true :=
    lookupPlayer_isSome_of_keys_eq _ _ _ (keys_pipeline ..) hguard.2
  obtain ⟨q, hq⟩ := Option.isSome_iff_exists.mp hsome3
  have hqs : q.score = pl.score := by
    have hsc := score_lookup_pipeline s.players pid dx dy pid
    rw [hq, hpl] at hsc
    simpa using hsc
  have heq : processMove s pid dx dy
      = ({ s with
            players := updatePlayer (clampAll (moveY (moveX s.players pid dx) pid dy))
              pid fun p =>
                { p with score := p.score
                    + (s.resources.filter (coinHit q.x q.y)).length },
            resources := s.resources.filter fun r => !coinHit q.x q.y r }, true) := by
    unfold processMove
    rw [if_pos hguard]
    rw [hq]
  refine ⟨?_, ?_, ?_, ?_⟩
  · refine ⟨{ q with score := q.score
        + (s.resources.filter (coinHit q.x q.y)).length }, ?_, ?_, ?_⟩
    · rw [heq]
      dsimp only
      rw [lookup_updatePlayer_self, hq]
      rfl
    · rw [heq]
    · dsimp only
      rw [hqs]
  · intro k hk
    rw [heq]
    dsimp only
    rw [lookup_updatePlayer_ne _ _ _ _ hk]
    rw [score_lookup_pipeline]
  · intro rx ry
    unfold spawnTick
    split
    · exact ⟨rfl, fun r hr => List.mem_append_left _ hr⟩
    · exact ⟨rfl, fun r hr => hr⟩
  · intro pid2 dur now
    unfold processStartGame
    split
    · exact ⟨rfl, rfl⟩
    · exact ⟨rfl, rfl⟩

/-- Witness for C5: in the worked example with one coin at (120, 100), A's
move to (110, 100) collects the coin — the resource list empties and A's
score becomes 1 — while B's score stays 0. -/
theorem claim_C5_witness :
    (∃ pl', lookupPlayer ((processMove exStateCoin 1 10 0).1).players 1 = some pl' ∧
      ((processMove exStateCoin 1 10 0).1).resources
          = exStateCoin.resources.filter (fun r => !coinHit pl'.x pl'.y r) ∧
      pl'.score = exPlayerA.score
          + (exStateCoin.resources.filter (coinHit pl'.x pl'.y)).length) ∧
    ((processMove exStateCoin 1 10 0).1).resources = [] ∧
    (lookupPlayer ((processMove exStateCoin 1 10 0).1).players 1).map Player.score
        = some 1 ∧
    (lookupPlayer ((processMove exStateCoin 1 10 0).1).players 2).map Player.score
        = some 0 :=
  ⟨(claim_C5_resource_collection exStateCoin 1 10 0 exPlayerA rfl rfl).1,
   rfl, rfl, rfl⟩

/-! ## Claim C6: the two full-reset paths -/

/-- **C6 counterexample.**  A full game cycle — join, start_game, one coin
spawn, timer to leaderboard, timer reset — reaches a completed full reset in
which `next_resource_id` is still 2, not 1: the reset block (server.py
lines 207-213) assigns `next_player_id` but never `next_resource_id`
(which is also absent from the `global` declaration at line 159). -/
theorem claim_C6_counterexample :
    Reachable st5 ∧ st5.players = [] ∧ st5.clients = [] ∧ st5.resources = [] ∧
    st5.gameState = GameState.lobby ∧ st5.hostPlayerId = 0 ∧
    st5.nextPlayerId = 1 ∧ st5.nextResourceId = 2 ∧ ¬ (2 : Nat) = 1 := by
  refine ⟨?_, rfl, rfl, rfl, rfl, rfl, rfl, rfl, by decide⟩
  exact Reachable.step _ _
    (Reachable.step _ _
      (Reachable.step _ _
        (Reachable.step _ _
          (Reachable.step _ _ Reachable.init
            (Step.good _ _ (GoodStep.firstMsg initState "pw"
              (some (JValue.jobj joinFields)) 700 100 JValue.jnull
              (by decide) (by decide) (by decide) (by decide))))
          (Step.good _ _ (GoodStep.startGame st1 1 1 0)))
        (Step.good _ _ (GoodStep.spawn st2 100 100
          (by decide) (by decide) (by decide) (by decide))))
      (Step.good _ _ (GoodStep.timerLb st3)))
    (Step.good _ _ (GoodStep.timerReset st4))

/-- **C6 (amended).**  After either full-reset path — the timer's final step,
or the disconnect cleanup of the last remaining player — the player map,
connection map and resource list are empty, the phase is lobby, the host is
0 and the player-identity counter is back to 1 (the next join gets
identity 1); the resource-identity counter, however, is NOT reset by either
path: it keeps its pre-reset value, so coin identities continue the old
sequence instead of restarting at 1. -/
theorem claim_C6_full_reset (s : ServerState) (h : Reachable s) (pid : Nat)
    (hsome : (lookupPlayer s.players pid).isSome = true)
    (hlast : delKey s.players pid = []) :
    (∀ t : ServerState,
      (timerReset t).players = [] ∧ (timerReset t).clients = [] ∧
      (timerReset t).resources = [] ∧
      (timerReset t).gameState = GameState.lobby ∧
      (timerReset t).hostPlayerId = 0 ∧ (timerReset t).nextPlayerId = 1 ∧
      (timerReset t).nextResourceId = t.nextResourceId) ∧
    ((processDisconnect s pid).players = [] ∧
     (processDisconnect s pid).clients = [] ∧
     (processDisconnect s pid).resources = [] ∧
     (processDisconnect s pid).gameState = GameState.lobby ∧
     (processDisconnect s pid).hostPlayerId = 0 ∧
     (processDisconnect s pid).nextPlayerId = 1 ∧
     (processDisconnect s pid).nextResourceId = s.nextResourceId) := by
  constructor
  · exact fun t => ⟨rfl, rfl, rfl, rfl, rfl, rfl, rfl⟩
  · obtain ⟨pl, hpl⟩ := Option.isSome_iff_exists.mp hsome
    have hE : (delKey s.players pid).isEmpty = true := by rw [hlast]; rfl
    have hd : processDisconnect s pid
        = { s with players := delKey s.players pid,
                   clients := s.clients.filter fun c => c != pid,
                   hostPlayerId := 0, gameState := GameState.lobby,
                   nextPlayerId := 1, resources := [] } := by
      unfold processDisconnect
      rw [hpl]
      dsimp only
      rw [if_pos hE]
    rw [hd]
    refine ⟨hlast, ?_, rfl, rfl, rfl, rfl, rfl⟩
    have hc := clientsInv_reachable s h
    show s.clients.filter (fun c => c != pid) = []
    rw [hc, ← keys_delKey, hlast]
    rfl

/-- Witness for C6: the sole player of `st1` disconnects; the session resets
but the resource counter keeps its value. -/
theorem claim_C6_witness :
    (processDisconnect st1 1).nextPlayerId = 1 ∧
    (processDisconnect st1 1).nextResourceId = st1.nextResourceId := by
  have h := (claim_C6_full_reset st1
    (Reachable.step _ _ Reachable.init (Step.good _ _
      (GoodStep.firstMsg initState "pw" (some (JValue.jobj joinFields)) 700 100
        JValue.jnull (by decide) (by decide) (by decide) (by decide))))
    1 rfl rfl).2
  exact ⟨h.2.2.2.2.2.1, h.2.2.2.2.2.2⟩
